import Mathlib

/-!
Verification development for the safe_nfs directory/file overlay.

The repository's `src/` holds `helper/directory_helper.rs`, `helper/file_helper.rs`
and `errors.rs`.  Those three files are embedded faithfully below.  The data
model they operate on (`directory_listing.rs`, `file.rs`, `metadata/…`,
`helper/writer.rs`, `helper/reader.rs`) and the storage substrate
(`maidsafe_client`) are not part of `src/`; their operations are modelled from
the specification (sections 3, 4.5, 6) and each such definition carries a doc
comment saying so.

Modelling conventions:
* byte vectors are `List Nat`; network names are `Nat`; times are `Nat`
  supplied explicitly as a `now` argument (the ambient clock);
* serialization and the encryption envelope are modelled as the identity on
  `DirectoryListing` (the spec only requires them to be a bit-exact
  round-trip), so an immutable version blob *is* the listing it encodes and
  content addressing names a blob by its content;
* the structured-record store is keyed by `(type_tag, owner_name)`, the pair
  the source feeds to `StructuredData::compute_name`;
* a Rust panic (`unwrap` on `None`) is totalized as the distinguished error
  `NfsError.panicked`, which is not one of the source's `NfsError` variants.
-/

set_option autoImplicit false

namespace SafeNfs

universe u

/-- First element of a list satisfying a Boolean predicate (models the
linear name scan of `find_file` / `find_sub_directory`). -/
def findWith {α : Type u} (p : α → Bool) : List α → Option α
  | [] => none
  | a :: l => if p a then some a else findWith p l

/-- Index of the first element satisfying a Boolean predicate (models
`Iterator::position` used by `get_file_index` / `get_sub_directory_index`). -/
def findIndexWith {α : Type u} (p : α → Bool) : List α → Option Nat
  | [] => none
  | a :: l => if p a then some 0 else (findIndexWith p l).map (fun i => i + 1)

/-- Replace the element at an index (models replacing a `Vec` slot). -/
def setAt {α : Type u} : List α → Nat → α → List α
  | [], _, _ => []
  | _ :: l, 0, b => b :: l
  | a :: l, n + 1, b => a :: setAt l n b

/-- Remove the element at an index (models `Vec::remove`). -/
def removeAt {α : Type u} : List α → Nat → List α
  | [], _ => []
  | _ :: l, 0 => l
  | a :: l, n + 1 => a :: removeAt l n

/-- Number of elements satisfying a Boolean predicate. -/
def countWith {α : Type u} (p : α → Bool) : List α → Nat
  | [] => 0
  | a :: l => (if p a then 1 else 0) + countWith p l

/-- Modelled from the spec: the two fixed, globally agreed `u64` sentinel
type tags for unversioned directory-listing structured records (§6.3);
only their distinctness matters. -/
def UNVERSIONED_DIRECTORY_LISTING_TAG : Nat := 100

/-- Modelled from the spec: the sentinel type tag for versioned
directory-listing structured records (§6.3). -/
def VERSIONED_DIRECTORY_LISTING_TAG : Nat := 101

/-- Modelled from the spec: the fixed well-known UTF-8 name of the user
root listing (§6.4). -/
def ROOT_DIRECTORY_NAME : String := "ROOT_DIRECTORY_NAME"

/-- Modelled from the spec: access level of a listing, `Public` stored
plainly, `Private` sealed with the session keypair (§3.1). -/
inductive AccessLevel
  | Private
  | Public
deriving DecidableEq, Repr

/-- Modelled from the spec: errors of the underlying storage client
(`maidsafe_client::errors::ClientError`), kept abstract: a failed substrate
`get`, a refused `post`, wrong-kind data, and a deserialization failure. -/
inductive ClientError
  | getFailure
  | postFailure
  | receivedUnexpectedData
  | deserialisationFailure
deriving DecidableEq, Repr

/-- The error enumeration of `src/errors.rs` (`NfsError`), extended with
`panicked`, which totalizes a Rust `unwrap` panic and corresponds to no
source variant. -/
inductive NfsError
  | AlreadyExists
  | ClientError (e : ClientError)
  | DestinationAndSourceAreSame
  | DirectoryNotFound
  | FailedToUpdateDirectory
  | FailedToUpdateFile
  | FileExistsInDestination
  | FileNotFound
  | InvalidRangeSpecified
  | MetadataIsEmpty
  | MetaDataMissingOrCorrupted
  | NameIsEmpty
  | NotFound
  | panicked
deriving DecidableEq, Repr

/-- Modelled from the spec: a directory key `(name, type_tag)` (§3.1,
`DirectoryKey`). -/
structure DirectoryKey where
  name : Nat
  typeTag : Nat
deriving DecidableEq, Repr

/-- Modelled from the spec: `DirectoryInfo` — key, user-visible name,
versioned flag, access level, optional parent key, user metadata and
timestamps (§3.1). -/
structure DirectoryInfo where
  key : DirectoryKey
  name : String
  versioned : Bool
  accessLevel : AccessLevel
  parentDirKey : Option DirectoryKey
  userMetadata : List Nat
  createdTime : Nat
  modifiedTime : Nat
deriving DecidableEq, Repr

/-- Modelled from the spec: one chunk entry of a data map (§3.1). -/
structure ChunkDetail where
  hash : Nat
  preHash : Nat
  size : Nat
deriving DecidableEq, Repr

/-- Modelled from the spec: `DataMap` — `None` for an empty file, inline
`Content` for a tiny file, or a chunk list (§3.1). -/
inductive DataMap
  | none
  | content (bytes : List Nat)
  | chunks (details : List ChunkDetail)
deriving DecidableEq, Repr

/-- Modelled from the spec: `FileMetadata` — name, user metadata, size and
timestamps (§3.1). -/
structure FileMetadata where
  name : String
  userMetadata : List Nat
  size : Nat
  createdTime : Nat
  modifiedTime : Nat
deriving DecidableEq, Repr

/-- Modelled from the spec: a `File` is metadata plus a data map (§3.1). -/
structure File where
  metadata : FileMetadata
  dataMap : DataMap
deriving DecidableEq, Repr

/-- Modelled from the spec: `FileMetadata::new` stamps creation and
modification times with the current clock and size 0 (§3.1). -/
def FileMetadata.new (file_name : String) (user_metadata : List Nat) (now : Nat) : FileMetadata :=
  { name := file_name, userMetadata := user_metadata, size := 0
  , createdTime := now, modifiedTime := now }

/-- Modelled from the spec: `set_user_metadata` replaces the user metadata
and refreshes the modification time (§8, metadata update isolation). -/
def FileMetadata.set_user_metadata (m : FileMetadata) (user_metadata : List Nat) (now : Nat) : FileMetadata :=
  { m with userMetadata := user_metadata, modifiedTime := now }

/-- Modelled from the spec: mutating a `File`'s user metadata delegates to
its metadata (§4.2 update_metadata). -/
def File.set_user_metadata (f : File) (user_metadata : List Nat) (now : Nat) : File :=
  { f with metadata := f.metadata.set_user_metadata user_metadata now }

/-- Modelled from the spec: a `DirectoryListing` is its info, the ordered
sub-directory infos and the ordered files (§3.1). -/
structure DirectoryListing where
  info : DirectoryInfo
  subDirectories : List DirectoryInfo
  files : List File
deriving DecidableEq, Repr

/-- Modelled from the spec: `DirectoryListing::new` fabricates an empty
listing with a fresh network-name identity and the supplied parent key
(§4.1 create). -/
def DirectoryListing.new (freshName now : Nat) (directory_name : String) (tag_type : Nat)
    (user_metadata : List Nat) (versioned : Bool) (access_level : AccessLevel)
    (parent_key : Option DirectoryKey) : DirectoryListing :=
  { info :=
      { key := { name := freshName, typeTag := tag_type }
      , name := directory_name
      , versioned := versioned
      , accessLevel := access_level
      , parentDirKey := parent_key
      , userMetadata := user_metadata
      , createdTime := now
      , modifiedTime := now }
  , subDirectories := []
  , files := [] }

/-- Modelled from the spec: `find_file` — linear scan of the file list by
name, first match (§4.5). -/
def DirectoryListing.find_file (dl : DirectoryListing) (file_name : String) : Option File :=
  findWith (fun f => f.metadata.name == file_name) dl.files

/-- Modelled from the spec: `get_file_index` — position of the first file
with the given name. -/
def DirectoryListing.get_file_index (dl : DirectoryListing) (file_name : String) : Option Nat :=
  findIndexWith (fun f => f.metadata.name == file_name) dl.files

/-- Modelled from the spec: `find_sub_directory` — linear scan of the
sub-directory infos by name, first match (§4.5). -/
def DirectoryListing.find_sub_directory (dl : DirectoryListing) (directory_name : String) : Option DirectoryInfo :=
  findWith (fun e => e.name == directory_name) dl.subDirectories

/-- Modelled from the spec: `upsert_sub_directory` — replace by
network-name match if present, else append; refreshes the listing's
modification time; a duplicate user-visible name under a different
network name is refused with `AlreadyExists` (§4.5, §4.1). -/
def DirectoryListing.upsert_sub_directory (dl : DirectoryListing) (child : DirectoryInfo)
    (now : Nat) : Except NfsError DirectoryListing :=
  match findIndexWith (fun e => e.key.name == child.key.name) dl.subDirectories with
  | some i =>
      Except.ok { dl with subDirectories := setAt dl.subDirectories i child
                        , info := { dl.info with modifiedTime := now } }
  | none =>
      match findWith (fun e => e.name == child.name) dl.subDirectories with
      | some _ => Except.error NfsError.AlreadyExists
      | none =>
          Except.ok { dl with subDirectories := dl.subDirectories ++ [child]
                            , info := { dl.info with modifiedTime := now } }

/-- Modelled from the spec: `upsert_file` — replace by file name if
present, else append; an empty name violates the model invariant and is
refused with `NameIsEmpty` (§4.5). -/
def DirectoryListing.upsert_file (dl : DirectoryListing) (f : File) : Except NfsError DirectoryListing :=
  if f.metadata.name = "" then Except.error NfsError.NameIsEmpty
  else
    match findIndexWith (fun g => g.metadata.name == f.metadata.name) dl.files with
    | some i => Except.ok { dl with files := setAt dl.files i f }
    | none => Except.ok { dl with files := dl.files ++ [f] }

/-- Modelled from the spec: payload of a structured record — a versioned
chain of immutable-blob identifiers, or the in-place unversioned
(possibly encrypted) serialized listing (§3.1, §6.3).  Under identity
serialization a blob identifier is the listing snapshot itself. -/
inductive SDPayload
  | versioned (chain : List DirectoryListing)
  | unversioned (data : DirectoryListing)
deriving DecidableEq, Repr

/-- Modelled from the spec: a structured record carries a monotonic version
counter and a payload (§3.1); its network name is computed from
`(type_tag, owner)` at each call site, as the source does. -/
structure StructuredData where
  version : Nat
  payload : SDPayload
deriving DecidableEq, Repr

/-- Modelled from the spec: the session/storage-client state — the
structured-record store keyed by `(type_tag, owner_name)`, the
content-addressed immutable-blob store, and the well-known user-root
slot (§6.1). -/
structure Client where
  structured : Nat → Nat → Option StructuredData
  blobs : DirectoryListing → Bool
  userRootId : Option Nat

/-- Modelled from the spec: `put` of a structured record — stores the
record under its computed name (§6.1). -/
def Client.putSD (c : Client) (tag owner : Nat) (sd : StructuredData) : Client :=
  { c with structured := fun t n => if t = tag ∧ n = owner then some sd else c.structured t n }

/-- Modelled from the spec: `put` of an immutable blob — content addressed
and idempotent (§6.1). -/
def Client.putBlob (c : Client) (d : DirectoryListing) : Client :=
  { c with blobs := fun x => if x = d then true else c.blobs x }

/-- Modelled from the spec: `post` updates an existing structured record;
posting where no record exists is refused by the substrate (§6.1). -/
def Client.postSD (c : Client) (tag owner : Nat) (sd : StructuredData) :
    Client × Except NfsError Unit :=
  match c.structured tag owner with
  | some _ => (c.putSD tag owner sd, Except.ok ())
  | none => (c, Except.error (NfsError.ClientError ClientError.postFailure))

/-- Modelled from the spec: `versioned::get_all_versions` lists the version
blob identifiers held by a versioned structured record (§4.1 get). -/
def getAllVersions (sd : StructuredData) : Except NfsError (List DirectoryListing) :=
  match sd.payload with
  | SDPayload.versioned chain => Except.ok chain
  | SDPayload.unversioned _ => Except.error (NfsError.ClientError ClientError.deserialisationFailure)

/-- Modelled from the spec: `versioned::append_version` appends the new
blob identifier to the record's version chain and increments the record's
version counter (§4.1 update). -/
def appendVersion (sd : StructuredData) (v : DirectoryListing) : Except NfsError StructuredData :=
  match sd.payload with
  | SDPayload.versioned chain =>
      Except.ok { version := sd.version + 1, payload := SDPayload.versioned (chain ++ [v]) }
  | SDPayload.unversioned _ => Except.error (NfsError.ClientError ClientError.deserialisationFailure)

/-- Modelled from the spec: `unversioned::get_data` decodes the in-place
payload of an unversioned structured record (§4.1 get); decryption is the
identity in this model. -/
def getUnversionedData (sd : StructuredData) : Except NfsError DirectoryListing :=
  match sd.payload with
  | SDPayload.unversioned d => Except.ok d
  | SDPayload.versioned _ => Except.error (NfsError.ClientError ClientError.deserialisationFailure)

/-- The structured-record tag under which `save_directory_listing` and the
update path persist a listing: hardcoded per versioned flag in the source
(`directory_helper.rs` lines 196-198, 214-215). -/
def recordTag (versioned : Bool) : Nat :=
  if versioned then VERSIONED_DIRECTORY_LISTING_TAG else UNVERSIONED_DIRECTORY_LISTING_TAG

namespace DirectoryHelper

/-- `DirectoryHelper::get_by_version` (`directory_helper.rs` 99-105):
fetch the named immutable blob and decrypt+deserialize it.  With identity
serialization the blob is the listing; a missing blob surfaces the
substrate's get failure. -/
def get_by_version (key : DirectoryKey) (access_level : AccessLevel) (version : DirectoryListing)
    (c : Client) : Client × Except NfsError DirectoryListing :=
  if c.blobs version then (c, Except.ok version)
  else (c, Except.error (NfsError.ClientError ClientError.getFailure))

/-- `DirectoryHelper::get` (`directory_helper.rs` 108-135): fetch the
structured record at the key; versioned: list all version ids and
dereference `versions.last().unwrap()` (a panic when the chain is empty,
totalized as `NfsError.panicked`); unversioned: decode the in-place
payload. -/
def get (key : DirectoryKey) (versioned : Bool) (access_level : AccessLevel) (c : Client) :
    Client × Except NfsError DirectoryListing :=
  match c.structured key.typeTag key.name with
  | none => (c, Except.error (NfsError.ClientError ClientError.getFailure))
  | some sd =>
      if versioned then
        match getAllVersions sd with
        | Except.error e => (c, Except.error e)
        | Except.ok versions =>
            match versions.getLast? with
            | none => (c, Except.error NfsError.panicked)
            | some latest => get_by_version key access_level latest c
      else
        match getUnversionedData sd with
        | Except.error e => (c, Except.error e)
        | Except.ok d => (c, Except.ok d)

/-- `DirectoryHelper::get_versions` (`directory_helper.rs` 93-96): fetch
the structured record at the key's name under the hardcoded
`VERSIONED_DIRECTORY_LISTING_TAG` and list its version chain. -/
def get_versions (key : DirectoryKey) (c : Client) :
    Client × Except NfsError (List DirectoryListing) :=
  match c.structured VERSIONED_DIRECTORY_LISTING_TAG key.name with
  | none => (c, Except.error (NfsError.ClientError ClientError.getFailure))
  | some sd =>
      match getAllVersions sd with
      | Except.error e => (c, Except.error e)
      | Except.ok versions => (c, Except.ok versions)

/-- `DirectoryHelper::save_directory_listing` (`directory_helper.rs`
184-224): serialize (encrypt if Private); versioned: store the snapshot
as an immutable blob and build a record whose payload is the one-element
version chain; unversioned: the serialized listing is the record payload
directly.  Counter starts at 0. -/
def save_directory_listing (d : DirectoryListing) (c : Client) : Client × StructuredData :=
  if d.info.versioned then
    (c.putBlob d, { version := 0, payload := SDPayload.versioned [d] })
  else
    (c, { version := 0, payload := SDPayload.unversioned d })

/-- `DirectoryHelper::update_directory_listing` (`directory_helper.rs`
226-268): fetch the current record at the listing's key; versioned: store
the new snapshot blob and append its id to the chain; unversioned: build
a replacement record with `previous.version + 1`; post the updated
record; re-fetch and return the canonical copy. -/
def update_directory_listing (d : DirectoryListing) (c : Client) :
    Client × Except NfsError DirectoryListing :=
  match c.structured d.info.key.typeTag d.info.key.name with
  | none => (c, Except.error (NfsError.ClientError ClientError.getFailure))
  | some sd =>
      if d.info.versioned then
        match appendVersion sd d with
        | Except.error e => (c.putBlob d, Except.error e)
        | Except.ok sd1 =>
            match (c.putBlob d).postSD d.info.key.typeTag d.info.key.name sd1 with
            | (c2, Except.error e) => (c2, Except.error e)
            | (c2, Except.ok _) => get d.info.key d.info.versioned d.info.accessLevel c2
      else
        match c.postSD UNVERSIONED_DIRECTORY_LISTING_TAG d.info.key.name
            { version := sd.version + 1, payload := SDPayload.unversioned d } with
        | (c2, Except.error e) => (c2, Except.error e)
        | (c2, Except.ok _) => get d.info.key d.info.versioned d.info.accessLevel c2

/-- `DirectoryHelper::update` (`directory_helper.rs` 75-77). -/
def update (d : DirectoryListing) (c : Client) : Client × Except NfsError DirectoryListing :=
  update_directory_listing d c

/-- `DirectoryHelper::update_directory_listing_and_parent`
(`directory_helper.rs` 81-90): persist the listing; then, if it has a
parent key, fetch the parent (with the child's versioned flag and access
level, as the source does), upsert the child info and persist the
parent. -/
def update_directory_listing_and_parent (d : DirectoryListing) (now : Nat) (c : Client) :
    Client × Except NfsError (Option DirectoryListing) :=
  match update_directory_listing d c with
  | (c1, Except.error e) => (c1, Except.error e)
  | (c1, Except.ok _) =>
      match d.info.parentDirKey with
      | none => (c1, Except.ok none)
      | some parent_key =>
          match get parent_key d.info.versioned d.info.accessLevel c1 with
          | (c2, Except.error e) => (c2, Except.error e)
          | (c2, Except.ok parent) =>
              match parent.upsert_sub_directory d.info now with
              | Except.error e => (c2, Except.error e)
              | Except.ok parent1 =>
                  match update_directory_listing parent1 c2 with
                  | (c3, Except.error e) => (c3, Except.error e)
                  | (c3, Except.ok u) => (c3, Except.ok (some u))

/-- `DirectoryHelper::create` (`directory_helper.rs` 33-60): fabricate the
listing (inheriting the parent key), persist its structured record, then,
if a parent was supplied, upsert the child info into the parent and run
the parent update path.  The Rust `&mut` parent is modelled by returning
the (possibly) mutated parent alongside the created listing. -/
def create (freshName now : Nat) (directory_name : String) (tag_type : Nat)
    (user_metadata : List Nat) (versioned : Bool) (access_level : AccessLevel)
    (parent_directory : Option DirectoryListing) (c : Client) :
    Client × Except NfsError (DirectoryListing × Option DirectoryListing) :=
  let directory := DirectoryListing.new freshName now directory_name tag_type user_metadata
      versioned access_level (parent_directory.map (fun p => p.info.key))
  let saved := save_directory_listing directory c
  let c1 := saved.1.putSD (recordTag versioned) freshName saved.2
  match parent_directory with
  | none => (c1, Except.ok (directory, none))
  | some p =>
      match p.upsert_sub_directory directory.info now with
      | Except.error e => (c1, Except.error e)
      | Except.ok p1 =>
          match update_directory_listing_and_parent p1 now c1 with
          | (c2, Except.error e) => (c2, Except.error e)
          | (c2, Except.ok _) => (c2, Except.ok (directory, some p1))

/-- `DirectoryHelper::delete` (`directory_helper.rs` 63-71): remove the
sub-directory entry by name (else `DirectoryNotFound`) and persist the
parent through the parent-update path. -/
def delete (parent : DirectoryListing) (directory_to_delete : String) (now : Nat) (c : Client) :
    Client × DirectoryListing × Except NfsError Unit :=
  match findIndexWith (fun e => e.name == directory_to_delete) parent.subDirectories with
  | none => (c, parent, Except.error NfsError.DirectoryNotFound)
  | some pos =>
      let parent1 := { parent with subDirectories := removeAt parent.subDirectories pos }
      match update_directory_listing_and_parent parent1 now c with
      | (c1, Except.error e) => (c1, parent1, Except.error e)
      | (c1, Except.ok _) => (c1, parent1, Except.ok ())

/-- `DirectoryHelper::get_user_root_directory_listing`
(`directory_helper.rs` 139-155): if the session's user-root id is set,
fetch the (unversioned, private) listing at it; otherwise create the root
under the well-known name, record its id in the session and return it. -/
def get_user_root_directory_listing (freshName now : Nat) (c : Client) :
    Client × Except NfsError DirectoryListing :=
  match c.userRootId with
  | some id =>
      get { name := id, typeTag := UNVERSIONED_DIRECTORY_LISTING_TAG } false AccessLevel.Private c
  | none =>
      match create freshName now ROOT_DIRECTORY_NAME UNVERSIONED_DIRECTORY_LISTING_TAG []
          false AccessLevel.Private none c with
      | (c1, Except.error e) => (c1, Except.error e)
      | (c1, Except.ok pr) =>
          ({ c1 with userRootId := some pr.1.info.key.name }, Except.ok pr.1)

end DirectoryHelper

/-- Modelled from the spec: Writer modes — `Overwrite` abandons the prior
pre-image, `Modify` patches it (§4.3). -/
inductive Mode
  | Overwrite
  | Modify
deriving DecidableEq, Repr

/-- Modelled from the spec: a Writer is a staged sink holding its mode,
the enclosing listing and the file; `Writer::new` performs no substrate
call and no listing mutation — everything happens on close (§4.3). -/
structure Writer where
  mode : Mode
  listing : DirectoryListing
  file : File
deriving DecidableEq, Repr

/-- Modelled from the spec: a Reader is a random-access view bound to a
file's data map; `Reader::new` performs no substrate call (§4.4). -/
structure Reader where
  file : File
deriving DecidableEq, Repr

namespace FileHelper

/-- `FileHelper::create` (`file_helper.rs` 34-45): reject with
`AlreadyExists` when the listing already has a file of that name;
otherwise wrap a fresh `File` with `DataMap::None` in a Writer in
Overwrite mode.  Pure: the source performs no substrate call and does not
touch the listing here. -/
def create (file_name : String) (user_metadata : List Nat) (directory_listing : DirectoryListing)
    (now : Nat) : Except NfsError Writer :=
  match directory_listing.find_file file_name with
  | some _ => Except.error NfsError.AlreadyExists
  | none =>
      Except.ok { mode := Mode.Overwrite
                , listing := directory_listing
                , file := { metadata := FileMetadata.new file_name user_metadata now
                          , dataMap := DataMap.none } }

/-- `FileHelper::delete` (`file_helper.rs` 48-54): remove the file entry
at the first index matching the name (else `FileNotFound`), then persist
the listing via `DirectoryHelper::update`.  The Rust `&mut` listing is
returned alongside. -/
def delete (file_name : String) (directory_listing : DirectoryListing) (c : Client) :
    Client × DirectoryListing × Except NfsError Unit :=
  match directory_listing.get_file_index file_name with
  | none => (c, directory_listing, Except.error NfsError.FileNotFound)
  | some i =>
      match DirectoryHelper.update
          { directory_listing with files := removeAt directory_listing.files i } c with
      | (c1, Except.error e) =>
          (c1, { directory_listing with files := removeAt directory_listing.files i },
            Except.error e)
      | (c1, Except.ok _) =>
          (c1, { directory_listing with files := removeAt directory_listing.files i },
            Except.ok ())

/-- `FileHelper::update` (`file_helper.rs` 59-65): require the file to
exist in the listing (else `FileNotFound`) and return a Writer in the
requested mode.  Pure: no substrate call before close. -/
def update (f : File) (mode : Mode) (directory_listing : DirectoryListing) :
    Except NfsError Writer :=
  match directory_listing.find_file f.metadata.name with
  | none => Except.error NfsError.FileNotFound
  | some _ => Except.ok { mode := mode, listing := directory_listing, file := f }

/-- `FileHelper::update_metadata` (`file_helper.rs` 68-78): require the
file to exist in the listing; replace the file's user metadata (stamping
the modification time); upsert the file into a clone of the listing;
persist the clone via `DirectoryHelper::update` and return the result.
The caller's listing is untouched (the source clones it). -/
def update_metadata (f : File) (user_metadata : List Nat) (directory_listing : DirectoryListing)
    (now : Nat) (c : Client) : Client × Except NfsError DirectoryListing :=
  match directory_listing.find_file f.metadata.name with
  | none => (c, Except.error NfsError.FileNotFound)
  | some _ =>
      match directory_listing.upsert_file
          { f with metadata := f.metadata.set_user_metadata user_metadata now } with
      | Except.error e => (c, Except.error e)
      | Except.ok mutable_listing => DirectoryHelper.update mutable_listing c

/-- `FileHelper::read` (`file_helper.rs` 103-106): require the file to be
present in the listing (defensive check, else `FileNotFound`) and return
a Reader bound to it.  Pure: `Reader::new` makes no substrate call. -/
def read (f : File) (directory_listing : DirectoryListing) : Except NfsError Reader :=
  match directory_listing.find_file f.metadata.name with
  | none => Except.error NfsError.FileNotFound
  | some _ => Except.ok { file := f }

end FileHelper

/-! ### Concrete states used as witnesses -/

/-- Test fixture: the empty substrate/session state. -/
def emptyClient : Client :=
  { structured := fun _ _ => none, blobs := fun _ => false, userRootId := none }

/-- Test fixture: a file named `A` with an empty data map. -/
def fileA : File := { metadata := FileMetadata.new "A" [1] 5, dataMap := DataMap.none }

/-- Test fixture: a file named `B`, not present in `dlA`. -/
def fileB : File := { metadata := FileMetadata.new "B" [] 6, dataMap := DataMap.content [2] }

/-- Test fixture: an unversioned private listing (network name 0) holding
`fileA` and no sub-directories. -/
def dlA : DirectoryListing :=
  { DirectoryListing.new 0 0 "Dir" UNVERSIONED_DIRECTORY_LISTING_TAG [] false
      AccessLevel.Private none with
    files := [fileA] }

/-- Test fixture: substrate state holding the unversioned record of `dlA`. -/
def clientA : Client :=
  emptyClient.putSD UNVERSIONED_DIRECTORY_LISTING_TAG 0
    { version := 0, payload := SDPayload.unversioned dlA }

/-- Test fixture: a versioned private listing (network name 3). -/
def dlV : DirectoryListing :=
  DirectoryListing.new 3 10 "VDir" VERSIONED_DIRECTORY_LISTING_TAG [] true
    AccessLevel.Private none

/-- Test fixture: the substrate as `create` leaves it for `dlV`. -/
def clientV : Client :=
  (DirectoryHelper.create 3 10 "VDir" VERSIONED_DIRECTORY_LISTING_TAG [] true
    AccessLevel.Private none emptyClient).1

/-- Test fixture: the substrate as `create` leaves it for an unversioned
listing with network name 0 (record at the unversioned tag only). -/
def clientU : Client :=
  (DirectoryHelper.create 0 0 "Dir" UNVERSIONED_DIRECTORY_LISTING_TAG [] false
    AccessLevel.Private none emptyClient).1

/-- Test fixture: a sub-directory entry named `Child` living under a
foreign network name, so a fresh `Child` upsert is refused. -/
def infoC : DirectoryInfo :=
  (DirectoryListing.new 42 3 "Child" UNVERSIONED_DIRECTORY_LISTING_TAG [] false
    AccessLevel.Private none).info

/-- Test fixture: a parent listing already holding a `Child` entry. -/
def dlP : DirectoryListing := { dlA with subDirectories := [infoC] }

/-- Test fixture: the child listing of the parent-link scenario. -/
def childW : DirectoryListing :=
  DirectoryListing.new 1 7 "Child" UNVERSIONED_DIRECTORY_LISTING_TAG [] false
    AccessLevel.Private (some dlA.info.key)

/-- Test fixture: `dlA` after upserting `childW`'s info at time 7. -/
def parentW : DirectoryListing :=
  { dlA with subDirectories := [childW.info], info := { dlA.info with modifiedTime := 7 } }

/-- Test fixture: `dlA` with `fileA`'s user metadata replaced at time 30. -/
def rW : DirectoryListing := { dlA with files := [fileA.set_user_metadata [9] 30] }

/-! ### Lemma kit: the substrate store -/

theorem putSD_self (c : Client) (tag owner : Nat) (sd : StructuredData) :
    (c.putSD tag owner sd).structured tag owner = some sd := by
  simp [Client.putSD]

theorem putSD_other (c : Client) (tag owner t n : Nat) (sd : StructuredData)
    (h : ¬(t = tag ∧ n = owner)) :
    (c.putSD tag owner sd).structured t n = c.structured t n := by
  simp [Client.putSD, h]

theorem putSD_blobs (c : Client) (tag owner : Nat) (sd : StructuredData) :
    (c.putSD tag owner sd).blobs = c.blobs := rfl

theorem putSD_userRootId (c : Client) (tag owner : Nat) (sd : StructuredData) :
    (c.putSD tag owner sd).userRootId = c.userRootId := rfl

theorem putBlob_structured (c : Client) (d : DirectoryListing) :
    (c.putBlob d).structured = c.structured := rfl

theorem putBlob_self (c : Client) (d : DirectoryListing) :
    (c.putBlob d).blobs d = true := by
  simp [Client.putBlob]

theorem putSD_isSome (c : Client) (tag owner t n : Nat) (sd : StructuredData)
    (h : (c.structured t n).isSome = true) :
    ((c.putSD tag owner sd).structured t n).isSome = true := by
  by_cases hk : t = tag ∧ n = owner
  · rcases hk with ⟨h1, h2⟩
    subst h1; subst h2
    rw [putSD_self]
    rfl
  · rw [putSD_other c tag owner t n sd hk]
    exact h

/-- `DirectoryHelper::get` never mutates the substrate state. -/
theorem get_state (key : DirectoryKey) (v : Bool) (al : AccessLevel) (c : Client) :
    (DirectoryHelper.get key v al c).1 = c := by
  unfold DirectoryHelper.get DirectoryHelper.get_by_version
  repeat' split
  all_goals rfl

/-- A key that holds a record keeps holding one across
`update_directory_listing`. -/
theorem postSD_shape (c : Client) (tag owner : Nat) (sd : StructuredData) (c2 : Client)
    (r : Except NfsError Unit) (h : c.postSD tag owner sd = (c2, r)) :
    c2 = c.putSD tag owner sd ∨ c2 = c := by
  unfold Client.postSD at h
  rcases hsd : c.structured tag owner with _ | s
  · rw [hsd] at h
    injection h with h1 h2
    exact Or.inr h1.symm
  · rw [hsd] at h
    injection h with h1 h2
    exact Or.inl h1.symm

theorem update_isSome (d : DirectoryListing) (c : Client) (t n : Nat)
    (h : (c.structured t n).isSome = true) :
    (((DirectoryHelper.update_directory_listing d c).1).structured t n).isSome = true := by
  unfold DirectoryHelper.update_directory_listing
  split
  · exact h
  next sd hsd =>
    split
    · -- versioned branch
      split
      · -- append_version refused: state is putBlob only
        exact h
      next sd1 hav =>
        split
        next c2 e heq =>
          rcases postSD_shape _ _ _ _ _ _ heq with h2 | h2 <;> subst h2
          · exact putSD_isSome _ _ _ _ _ _ h
          · exact h
        next c2 u heq =>
          rw [get_state]
          rcases postSD_shape _ _ _ _ _ _ heq with h2 | h2 <;> subst h2
          · exact putSD_isSome _ _ _ _ _ _ h
          · exact h
    · -- unversioned branch
      split
      next c2 e heq =>
        rcases postSD_shape _ _ _ _ _ _ heq with h2 | h2 <;> subst h2
        · exact putSD_isSome _ _ _ _ _ _ h
        · exact h
      next c2 u heq =>
        rw [get_state]
        rcases postSD_shape _ _ _ _ _ _ heq with h2 | h2 <;> subst h2
        · exact putSD_isSome _ _ _ _ _ _ h
        · exact h

/-- A key that holds a record keeps holding one across
`update_directory_listing_and_parent`. -/
theorem udlap_isSome (d : DirectoryListing) (now : Nat) (c : Client) (t n : Nat)
    (h : (c.structured t n).isSome = true) :
    (((DirectoryHelper.update_directory_listing_and_parent d now c).1).structured t n).isSome = true := by
  unfold DirectoryHelper.update_directory_listing_and_parent
  split
  next c1 e heq =>
    have h1 := update_isSome d c t n h
    rw [heq] at h1
    exact h1
  next c1 u heq =>
    have h1 : (c1.structured t n).isSome = true := by
      have := update_isSome d c t n h
      rw [heq] at this
      exact this
    split
    · exact h1
    next pk hpk =>
      split
      next c2 e heq2 =>
        have hc2 : c2 = c1 := by
          have := get_state pk d.info.versioned d.info.accessLevel c1
          rw [heq2] at this
          exact this
        rw [hc2]
        exact h1
      next c2 parent heq2 =>
        have hc2 : c2 = c1 := by
          have := get_state pk d.info.versioned d.info.accessLevel c1
          rw [heq2] at this
          exact this
        split
        · rw [hc2]; exact h1
        next parent1 hup =>
          split
          next c3 e heq3 =>
            have h3 := update_isSome parent1 c2 t n (by rw [hc2]; exact h1)
            rw [heq3] at h3
            exact h3
          next c3 u3 heq3 =>
            have h3 := update_isSome parent1 c2 t n (by rw [hc2]; exact h1)
            rw [heq3] at h3
            exact h3

/-! ### Lemma kit: list combinators -/

theorem findWith_isSome_append {α : Type u} (p : α → Bool) (l : List α) (a : α)
    (ha : p a = true) : (findWith p (l ++ [a])).isSome = true := by
  induction l with
  | nil => simp [findWith, ha]
  | cons b l ih =>
      by_cases hb : p b
      · simp [findWith, hb]
      · simpa [findWith, hb] using ih

theorem findWith_isSome_setAt {α : Type u} (p q : α → Bool) (l : List α) (i : Nat) (a : α)
    (hi : findIndexWith p l = some i) (ha : q a = true) :
    (findWith q (setAt l i a)).isSome = true := by
  induction l generalizing i with
  | nil => simp [findIndexWith] at hi
  | cons b l ih =>
      by_cases hb : p b
      · have : i = 0 := by
          simp [findIndexWith, hb] at hi
          omega
        subst this
        simp [setAt, findWith, ha]
      · simp only [findIndexWith, hb, if_false] at hi
        rcases hrec : findIndexWith p l with _ | j
        · rw [hrec] at hi; simp at hi
        · rw [hrec] at hi
          simp at hi
          subst hi
          by_cases hqb : q b
          · simp [setAt, findWith, hqb]
          · simpa [setAt, findWith, hqb] using ih j hrec

theorem findIndexWith_bound {α : Type u} (p : α → Bool) (l : List α) (i : Nat)
    (hi : findIndexWith p l = some i) : i < l.length := by
  induction l generalizing i with
  | nil => simp [findIndexWith] at hi
  | cons b l ih =>
      by_cases hb : p b
      · have hi0 : i = 0 := by
          simp [findIndexWith, hb] at hi
          omega
        subst hi0
        simp
      · simp only [findIndexWith, hb, if_false] at hi
        rcases hrec : findIndexWith p l with _ | j
        · rw [hrec] at hi; simp at hi
        · rw [hrec] at hi
          simp at hi
          subst hi
          have := ih j hrec
          simp
          omega

/-- Removing the first match from a list with at most one match leaves no
match. -/
theorem findWith_removeAt_none {α : Type u} (p : α → Bool) (l : List α) (i : Nat)
    (hi : findIndexWith p l = some i) (hu : countWith p l ≤ 1) :
    findWith p (removeAt l i) = none := by
  induction l generalizing i with
  | nil => simp [findIndexWith] at hi
  | cons b l ih =>
      by_cases hb : p b
      · have hi0 : i = 0 := by
          simp [findIndexWith, hb] at hi
          omega
        subst hi0
        simp only [removeAt]
        have hcount : countWith p l = 0 := by
          simp [countWith, hb] at hu
          omega
        clear hi hu ih
        induction l with
        | nil => rfl
        | cons d l ihd =>
            by_cases hd : p d
            · simp [countWith, hd] at hcount
            · simp only [countWith, hd, if_false] at hcount
              simpa [findWith, hd] using ihd (by omega)
      · simp only [findIndexWith, hb, if_false] at hi
        rcases hrec : findIndexWith p l with _ | j
        · rw [hrec] at hi; simp at hi
        · rw [hrec] at hi
          simp at hi
          subst hi
          have hu' : countWith p l ≤ 1 := by
            simp [countWith, hb] at hu
            omega
          simpa [removeAt, findWith, hb] using ih j hrec hu'

theorem getLast?_snoc {α : Type u} (l : List α) (a : α) : (l ++ [a]).getLast? = some a := by
  rw [List.getLast?_append_cons]
  rfl

/-- On success (and with the listing's key tag matching the record tag its
versioned flag selects), `update_directory_listing` hands back exactly the
listing it was given — the re-fetched canonical copy is the posted
snapshot — and a subsequent `get` at the listing's key observes it. -/
theorem update_ok_shape (d : DirectoryListing) (c c' : Client) (r : DirectoryListing)
    (halign : d.info.key.typeTag = recordTag d.info.versioned)
    (h : DirectoryHelper.update_directory_listing d c = (c', Except.ok r)) :
    r = d ∧
      DirectoryHelper.get d.info.key d.info.versioned d.info.accessLevel c' =
        (c', Except.ok d) := by
  unfold DirectoryHelper.update_directory_listing at h
  split at h
  · exact absurd h (by simp)
  next sd hsd =>
    split at h
    next hv =>
      -- versioned branch
      split at h
      · exact absurd h (by simp)
      next sd1 hav =>
        split at h
        next c2 e heq => exact absurd h (by simp)
        next c2 u heq =>
          have hc2 : c2 = (c.putBlob d).putSD d.info.key.typeTag d.info.key.name sd1 := by
            unfold Client.postSD at heq
            rw [putBlob_structured, hsd] at heq
            injection heq with h1 h2
            exact h1.symm
          unfold appendVersion at hav
          split at hav
          next chain hchain =>
            have hsd1 : sd1 = { version := sd.version + 1
                              , payload := SDPayload.versioned (chain ++ [d]) } := by
              injection hav with h1
              exact h1.symm
            have hget : DirectoryHelper.get d.info.key d.info.versioned d.info.accessLevel c2 =
                (c2, Except.ok d) := by
              unfold DirectoryHelper.get
              rw [hc2, putSD_self]
              simp only [hv, if_true, hsd1, getAllVersions, getLast?_snoc]
              unfold DirectoryHelper.get_by_version
              rw [putSD_blobs, putBlob_self]
              simp
            rw [hget] at h
            injection h with h1 h2
            injection h2 with h3
            constructor
            · exact h3.symm
            · rw [← h1, hget, h3]
          next hchain => exact absurd hav (by simp)
    next hv =>
      -- unversioned branch
      have hvf : d.info.versioned = false := by
        revert hv
        rcases d.info.versioned with _ | _ <;> simp
      have htag : d.info.key.typeTag = UNVERSIONED_DIRECTORY_LISTING_TAG := by
        rw [halign, hvf]
        rfl
      split at h
      next c2 e heq => exact absurd h (by simp)
      next c2 u heq =>
        have hc2 : c2 = c.putSD UNVERSIONED_DIRECTORY_LISTING_TAG d.info.key.name
            { version := sd.version + 1, payload := SDPayload.unversioned d } := by
          have hsd2 : c.structured UNVERSIONED_DIRECTORY_LISTING_TAG d.info.key.name = some sd := by
            rw [← htag]
            exact hsd
          unfold Client.postSD at heq
          rw [hsd2] at heq
          injection heq with h1 h2
          exact h1.symm
        have hget : DirectoryHelper.get d.info.key d.info.versioned d.info.accessLevel c2 =
            (c2, Except.ok d) := by
          unfold DirectoryHelper.get
          rw [hc2, htag, putSD_self]
          simp [hvf, getUnversionedData]
        rw [hget] at h
        injection h with h1 h2
        injection h2 with h3
        constructor
        · exact h3.symm
        · rw [← h1, hget, h3]

theorem findIndexWith_none_findWith {α : Type u} (p : α → Bool) (l : List α)
    (h : findIndexWith p l = none) : findWith p l = none := by
  induction l with
  | nil => rfl
  | cons b l ih =>
      by_cases hb : p b
      · simp [findIndexWith, hb] at h
      · simp only [findIndexWith, hb, if_false] at h
        rcases hrec : findIndexWith p l with _ | j
        · simp [findWith, hb]
          exact ih hrec
        · rw [hrec] at h
          simp at h

theorem findWith_none_findIndexWith {α : Type u} (p : α → Bool) (l : List α)
    (h : findWith p l = none) : findIndexWith p l = none := by
  induction l with
  | nil => rfl
  | cons b l ih =>
      by_cases hb : p b
      · simp [findWith, hb] at h
      · simp only [findWith, hb, if_false] at h
        simp only [findIndexWith, hb, if_false]
        rw [ih h]
        rfl

theorem setAt_length {α : Type u} (l : List α) (i : Nat) (a : α) :
    (setAt l i a).length = l.length := by
  induction l generalizing i with
  | nil => rfl
  | cons b l ih =>
      rcases i with _ | j
      · rfl
      · simp [setAt, ih j]

/-- On success, `upsert_sub_directory` leaves an entry with the child's
name findable. -/
theorem upsert_sub_directory_find (dl : DirectoryListing) (child : DirectoryInfo) (now : Nat)
    (q : DirectoryListing) (h : dl.upsert_sub_directory child now = Except.ok q) :
    (q.find_sub_directory child.name).isSome = true := by
  unfold DirectoryListing.upsert_sub_directory at h
  rcases hidx : findIndexWith (fun e => e.key.name == child.key.name) dl.subDirectories with _ | i
  · rw [hidx] at h
    rcases hfind : findWith (fun e => e.name == child.name) dl.subDirectories with _ | e
    · rw [hfind] at h
      simp only [Except.ok.injEq] at h
      subst h
      unfold DirectoryListing.find_sub_directory
      exact findWith_isSome_append _ _ _ (by simp)
    · rw [hfind] at h
      simp at h
  · rw [hidx] at h
    simp only [Except.ok.injEq] at h
    subst h
    unfold DirectoryListing.find_sub_directory
    exact findWith_isSome_setAt _ _ _ _ _ hidx (by simp)

/-- Versioned update, computed: fetching the record, appending the new
snapshot to the chain, posting, and re-fetching the appended snapshot. -/
theorem update_versioned_eq (d : DirectoryListing) (c : Client) (sd : StructuredData)
    (chain : List DirectoryListing)
    (hv : d.info.versioned = true)
    (hsd : c.structured d.info.key.typeTag d.info.key.name = some sd)
    (hp : sd.payload = SDPayload.versioned chain) :
    DirectoryHelper.update_directory_listing d c =
      ((c.putBlob d).putSD d.info.key.typeTag d.info.key.name
        { version := sd.version + 1, payload := SDPayload.versioned (chain ++ [d]) },
       Except.ok d) := by
  have hav : appendVersion sd d =
      Except.ok { version := sd.version + 1, payload := SDPayload.versioned (chain ++ [d]) } := by
    unfold appendVersion
    rw [hp]
  have hpost : (c.putBlob d).postSD d.info.key.typeTag d.info.key.name
      { version := sd.version + 1, payload := SDPayload.versioned (chain ++ [d]) } =
      ((c.putBlob d).putSD d.info.key.typeTag d.info.key.name
        { version := sd.version + 1, payload := SDPayload.versioned (chain ++ [d]) },
       Except.ok ()) := by
    unfold Client.postSD
    rw [putBlob_structured, hsd]
  unfold DirectoryHelper.update_directory_listing
  rw [hsd]
  simp only [hv, if_true, hav, hpost]
  unfold DirectoryHelper.get
  rw [putSD_self]
  simp only [hv, if_true, getAllVersions, getLast?_snoc]
  unfold DirectoryHelper.get_by_version
  rw [putSD_blobs, putBlob_self]
  simp

/-! ### The claims -/

/-- Claim C1: for a versioned listing (well-formed key tag, record present
with a versioned chain), one `DirectoryHelper::update` appends exactly one
new snapshot id, so `get_versions` grows by exactly one. -/
theorem C1_update_appends_one_version (d : DirectoryListing) (c : Client)
    (sd : StructuredData) (chain : List DirectoryListing)
    (hv : d.info.versioned = true)
    (halign : d.info.key.typeTag = VERSIONED_DIRECTORY_LISTING_TAG)
    (hsd : c.structured VERSIONED_DIRECTORY_LISTING_TAG d.info.key.name = some sd)
    (hp : sd.payload = SDPayload.versioned chain) :
    (DirectoryHelper.get_versions d.info.key c).2 = Except.ok chain ∧
    ∃ chain2,
      (DirectoryHelper.get_versions d.info.key (DirectoryHelper.update d c).1).2 =
        Except.ok chain2 ∧
      chain2.length = chain.length + 1 := by
  have hsd0 : c.structured d.info.key.typeTag d.info.key.name = some sd := by
    rw [halign]
    exact hsd
  constructor
  · unfold DirectoryHelper.get_versions
    rw [hsd]
    simp only [getAllVersions, hp]
  · refine ⟨chain ++ [d], ?_, by simp⟩
    unfold DirectoryHelper.update
    rw [update_versioned_eq d c sd chain hv hsd0 hp]
    unfold DirectoryHelper.get_versions
    have hlook : (((c.putBlob d).putSD d.info.key.typeTag d.info.key.name
        { version := sd.version + 1, payload := SDPayload.versioned (chain ++ [d]) }).structured
        VERSIONED_DIRECTORY_LISTING_TAG d.info.key.name) =
        some { version := sd.version + 1, payload := SDPayload.versioned (chain ++ [d]) } := by
      rw [halign]
      exact putSD_self _ _ _ _
    rw [hlook]
    simp only [getAllVersions]

/-- Claim C5 (corrected), part holding on the code: `get_versions` on a
versioned record returns the full stored chain (oldest first, as `update`
only ever appends); on a key holding no record under the versioned tag —
which is what an unversioned listing's key is — it fails with the
substrate's pass-through `ClientError`, not an `InvalidOperation`-style
variant (no such variant exists in `NfsError`). -/
theorem C5_get_versions_behaviour :
    (∀ (c : Client) (key : DirectoryKey) (sd : StructuredData) (chain : List DirectoryListing),
      c.structured VERSIONED_DIRECTORY_LISTING_TAG key.name = some sd →
      sd.payload = SDPayload.versioned chain →
      (DirectoryHelper.get_versions key c).2 = Except.ok chain) ∧
    (∀ (c : Client) (key : DirectoryKey),
      c.structured VERSIONED_DIRECTORY_LISTING_TAG key.name = none →
      (DirectoryHelper.get_versions key c).2 =
        Except.error (NfsError.ClientError ClientError.getFailure)) := by
  constructor
  · intro c key sd chain hsd hp
    unfold DirectoryHelper.get_versions
    rw [hsd]
    simp only [getAllVersions, hp]
  · intro c key hnone
    unfold DirectoryHelper.get_versions
    rw [hnone]

/-- Claim C10: dereferencing `versions.last().unwrap()` in
`DirectoryHelper::get` cannot panic when the record's chain is non-empty;
creation of a versioned listing stores a singleton (hence non-empty)
chain; and with an (unreachable through this module) empty chain the
operation is partial: the totalized panic shows up. -/
theorem C10_get_latest_unwrap_safe (key : DirectoryKey) (al : AccessLevel) (c : Client)
    (sd : StructuredData) (chain : List DirectoryListing)
    (hsd : c.structured key.typeTag key.name = some sd)
    (hp : sd.payload = SDPayload.versioned chain)
    (hne : chain ≠ []) :
    (DirectoryHelper.get key true al c).2 ≠ Except.error NfsError.panicked ∧
    (∀ (freshName now : Nat) (nm : String) (tg : Nat) (meta : List Nat)
        (al2 : AccessLevel) (c2 : Client),
      ((DirectoryHelper.create freshName now nm tg meta true al2 none c2).1).structured
          VERSIONED_DIRECTORY_LISTING_TAG freshName =
        some { version := 0
             , payload := SDPayload.versioned
                 [DirectoryListing.new freshName now nm tg meta true al2 none] }) ∧
    (∀ (key2 : DirectoryKey) (al3 : AccessLevel) (c3 : Client) (sd3 : StructuredData),
      c3.structured key2.typeTag key2.name = some sd3 →
      sd3.payload = SDPayload.versioned [] →
      (DirectoryHelper.get key2 true al3 c3).2 = Except.error NfsError.panicked) := by
  refine ⟨?_, ?_, ?_⟩
  · unfold DirectoryHelper.get
    rw [hsd]
    simp only [if_true, getAllVersions, hp]
    rcases hl : chain.getLast? with _ | latest
    · rw [List.getLast?_eq_none_iff] at hl
      exact absurd hl hne
    · unfold DirectoryHelper.get_by_version
      split
      next heq => exact absurd heq (by simp)
      next l2 heq => split <;> simp
  · intro freshName now nm tg meta al2 c2
    unfold DirectoryHelper.create DirectoryHelper.save_directory_listing
    simp only [DirectoryListing.new, if_true, recordTag]
    exact putSD_self _ _ _ _
  · intro key2 al3 c3 sd3 hsd3 hp3
    unfold DirectoryHelper.get
    rw [hsd3]
    simp only [if_true, getAllVersions, hp3, List.getLast?_nil]

/-- `save_directory_listing` never touches the structured-record store
(the versioned branch only adds the snapshot blob). -/
theorem save_structured (d : DirectoryListing) (c : Client) :
    (DirectoryHelper.save_directory_listing d c).1.structured = c.structured := by
  unfold DirectoryHelper.save_directory_listing
  split <;> rfl

/-- Claim C3: a successful `create(name, …, Some(parent))` leaves the
(mutated) parent with a findable sub-directory entry named `name`, and
the created listing's `parent_dir_key` equals the parent's key. -/
theorem C3_parent_linkage (freshName now : Nat) (directory_name : String) (tag_type : Nat)
    (user_metadata : List Nat) (versioned : Bool) (access_level : AccessLevel)
    (p : DirectoryListing) (c c' : Client) (child : DirectoryListing)
    (pOut : Option DirectoryListing)
    (h : DirectoryHelper.create freshName now directory_name tag_type user_metadata versioned
        access_level (some p) c = (c', Except.ok (child, pOut))) :
    child.info.parentDirKey = some p.info.key ∧
    child.info.name = directory_name ∧
    ∃ p1, pOut = some p1 ∧ (p1.find_sub_directory directory_name).isSome = true := by
  simp only [DirectoryHelper.create, Option.map_some'] at h
  split at h
  next e hup => exact absurd h (by simp)
  next p1 hup =>
    split at h
    next c2 e heq => exact absurd h (by simp)
    next c2 u heq =>
      injection h with h1 h2
      injection h2 with h3
      injection h3 with h4 h5
      refine ⟨?_, ?_, p1, h5.symm, ?_⟩
      · rw [← h4]; rfl
      · rw [← h4]; rfl
      · exact upsert_sub_directory_find p _ now p1 hup

/-- Claim C2: in `create` with a parent supplied, the child's structured
record is put to the substrate before the parent phase runs: for every
call, whatever the parent phase does, the child's record is present in
the final state — in particular after any parent-phase failure — and
every parent-phase failure is surfaced verbatim to the caller, both an
upsert refusal by the parent and a failure of the parent persistence
path. -/
theorem C2_child_persisted_parent_error_surfaced (freshName now : Nat)
    (directory_name : String) (tag_type : Nat) (user_metadata : List Nat)
    (versioned : Bool) (access_level : AccessLevel) (p : DirectoryListing) (c : Client) :
    (((DirectoryHelper.create freshName now directory_name tag_type user_metadata versioned
        access_level (some p) c).1).structured (recordTag versioned) freshName).isSome = true ∧
    (∀ e, p.upsert_sub_directory
        (DirectoryListing.new freshName now directory_name tag_type user_metadata versioned
          access_level (some p.info.key)).info now = Except.error e →
      (DirectoryHelper.create freshName now directory_name tag_type user_metadata versioned
        access_level (some p) c).2 = Except.error e) ∧
    (∀ p1 c2 e, p.upsert_sub_directory
        (DirectoryListing.new freshName now directory_name tag_type user_metadata versioned
          access_level (some p.info.key)).info now = Except.ok p1 →
      DirectoryHelper.update_directory_listing_and_parent p1 now
        ((DirectoryHelper.save_directory_listing
          (DirectoryListing.new freshName now directory_name tag_type user_metadata versioned
            access_level (some p.info.key)) c).1.putSD (recordTag versioned) freshName
          (DirectoryHelper.save_directory_listing
            (DirectoryListing.new freshName now directory_name tag_type user_metadata versioned
              access_level (some p.info.key)) c).2) = (c2, Except.error e) →
      (DirectoryHelper.create freshName now directory_name tag_type user_metadata versioned
        access_level (some p) c).2 = Except.error e) := by
  refine ⟨?_, ?_, ?_⟩
  · simp only [DirectoryHelper.create, Option.map_some']
    split
    · dsimp only
      rw [putSD_self]
      rfl
    next p1 hup =>
      split
      next c2 e heq =>
        dsimp only
        have h2 := udlap_isSome p1 now
          ((DirectoryHelper.save_directory_listing
            (DirectoryListing.new freshName now directory_name tag_type user_metadata versioned
              access_level (some p.info.key)) c).1.putSD (recordTag versioned) freshName
            (DirectoryHelper.save_directory_listing
              (DirectoryListing.new freshName now directory_name tag_type user_metadata versioned
                access_level (some p.info.key)) c).2)
          (recordTag versioned) freshName (by rw [putSD_self]; rfl)
        rw [heq] at h2
        exact h2
      next c2 u heq =>
        dsimp only
        have h2 := udlap_isSome p1 now
          ((DirectoryHelper.save_directory_listing
            (DirectoryListing.new freshName now directory_name tag_type user_metadata versioned
              access_level (some p.info.key)) c).1.putSD (recordTag versioned) freshName
            (DirectoryHelper.save_directory_listing
              (DirectoryListing.new freshName now directory_name tag_type user_metadata versioned
                access_level (some p.info.key)) c).2)
          (recordTag versioned) freshName (by rw [putSD_self]; rfl)
        rw [heq] at h2
        exact h2
  · intro e hup
    simp only [DirectoryHelper.create, Option.map_some', hup]
  · intro p1 c2 e hup hudlap
    simp only [DirectoryHelper.create, Option.map_some', hup, hudlap]

/-- Claim C4: with no user-root id in the session,
`get_user_root_directory_listing` creates an unversioned private root
named `ROOT_DIRECTORY_NAME` with no parent, records its id in the
session, and a second call fetches a listing with the same key. -/
theorem C4_user_root_bootstrap (freshName now f2 t2 : Nat) (c : Client)
    (h : c.userRootId = none) :
    ∃ l1,
      (DirectoryHelper.get_user_root_directory_listing freshName now c).2 = Except.ok l1 ∧
      l1.info.name = ROOT_DIRECTORY_NAME ∧
      l1.info.versioned = false ∧
      l1.info.accessLevel = AccessLevel.Private ∧
      l1.info.parentDirKey = none ∧
      ((DirectoryHelper.get_user_root_directory_listing freshName now c).1).userRootId =
        some l1.info.key.name ∧
      ∃ l2,
        (DirectoryHelper.get_user_root_directory_listing f2 t2
            (DirectoryHelper.get_user_root_directory_listing freshName now c).1).2 =
          Except.ok l2 ∧
        l2.info.key = l1.info.key := by
  have h1 : DirectoryHelper.get_user_root_directory_listing freshName now c =
      ({ c.putSD UNVERSIONED_DIRECTORY_LISTING_TAG freshName
           { version := 0
           , payload := SDPayload.unversioned
               (DirectoryListing.new freshName now ROOT_DIRECTORY_NAME
                 UNVERSIONED_DIRECTORY_LISTING_TAG [] false AccessLevel.Private none) } with
         userRootId := some freshName },
       Except.ok (DirectoryListing.new freshName now ROOT_DIRECTORY_NAME
         UNVERSIONED_DIRECTORY_LISTING_TAG [] false AccessLevel.Private none)) := by
    unfold DirectoryHelper.get_user_root_directory_listing
    rw [h]
    rfl
  have hs : ({ c.putSD UNVERSIONED_DIRECTORY_LISTING_TAG freshName
      { version := 0
      , payload := SDPayload.unversioned
          (DirectoryListing.new freshName now ROOT_DIRECTORY_NAME
            UNVERSIONED_DIRECTORY_LISTING_TAG [] false AccessLevel.Private none) } with
      userRootId := some freshName } : Client).structured
      UNVERSIONED_DIRECTORY_LISTING_TAG freshName =
      some { version := 0
           , payload := SDPayload.unversioned
               (DirectoryListing.new freshName now ROOT_DIRECTORY_NAME
                 UNVERSIONED_DIRECTORY_LISTING_TAG [] false AccessLevel.Private none) } :=
    putSD_self c _ _ _
  have h2 : DirectoryHelper.get_user_root_directory_listing f2 t2
      ({ c.putSD UNVERSIONED_DIRECTORY_LISTING_TAG freshName
           { version := 0
           , payload := SDPayload.unversioned
               (DirectoryListing.new freshName now ROOT_DIRECTORY_NAME
                 UNVERSIONED_DIRECTORY_LISTING_TAG [] false AccessLevel.Private none) } with
         userRootId := some freshName }) =
      ({ c.putSD UNVERSIONED_DIRECTORY_LISTING_TAG freshName
           { version := 0
           , payload := SDPayload.unversioned
               (DirectoryListing.new freshName now ROOT_DIRECTORY_NAME
                 UNVERSIONED_DIRECTORY_LISTING_TAG [] false AccessLevel.Private none) } with
         userRootId := some freshName },
       Except.ok (DirectoryListing.new freshName now ROOT_DIRECTORY_NAME
         UNVERSIONED_DIRECTORY_LISTING_TAG [] false AccessLevel.Private none)) := by
    show DirectoryHelper.get
        { name := freshName, typeTag := UNVERSIONED_DIRECTORY_LISTING_TAG }
        false AccessLevel.Private _ = _
    unfold DirectoryHelper.get
    rw [hs]
    rfl
  refine ⟨DirectoryListing.new freshName now ROOT_DIRECTORY_NAME
      UNVERSIONED_DIRECTORY_LISTING_TAG [] false AccessLevel.Private none,
    ?_, rfl, rfl, rfl, rfl, ?_, ?_⟩
  · rw [h1]
  · rw [h1]
    rfl
  · refine ⟨DirectoryListing.new freshName now ROOT_DIRECTORY_NAME
        UNVERSIONED_DIRECTORY_LISTING_TAG [] false AccessLevel.Private none, ?_, rfl⟩
    rw [h1]
    show (DirectoryHelper.get_user_root_directory_listing f2 t2 _).2 = _
    rw [h2]

/-- Claim C6: `FileHelper::create` returns `AlreadyExists` exactly when
the listing already has a file of that name; otherwise it returns a
Writer in Overwrite mode wrapping a fresh file with `DataMap::None` and
the unmutated listing.  The embedding is a pure function of the listing:
the source makes no substrate call and no listing mutation here. -/
theorem C6_file_create_modes (file_name : String) (user_metadata : List Nat)
    (dl : DirectoryListing) (now : Nat) :
    (FileHelper.create file_name user_metadata dl now = Except.error NfsError.AlreadyExists ↔
      (dl.find_file file_name).isSome = true) ∧
    (dl.find_file file_name = none →
      FileHelper.create file_name user_metadata dl now =
        Except.ok { mode := Mode.Overwrite
                  , listing := dl
                  , file := { metadata := FileMetadata.new file_name user_metadata now
                            , dataMap := DataMap.none } }) := by
  rcases hf : dl.find_file file_name with _ | f
  · simp [FileHelper.create, hf]
  · simp [FileHelper.create, hf]

/-- Claim C7: a successful `update_metadata` replaces exactly the targeted
file slot in a clone of the listing with a copy of the supplied file whose
user metadata and modified time are updated and whose data map is
untouched; every other file, all sub-directory entries and the listing's
own info are unchanged, and the persisted clone is what is returned (the
caller's listing value is not mutated: the source clones it). -/
theorem C7_update_metadata_isolation (f : File) (user_metadata : List Nat)
    (dl : DirectoryListing) (now : Nat) (c c' : Client) (r : DirectoryListing)
    (halign : dl.info.key.typeTag = recordTag dl.info.versioned)
    (h : FileHelper.update_metadata f user_metadata dl now c = (c', Except.ok r)) :
    ∃ i, findIndexWith (fun g => g.metadata.name == f.metadata.name) dl.files = some i ∧
      r = { dl with files := setAt dl.files i (f.set_user_metadata user_metadata now) } ∧
      r.info = dl.info ∧
      r.subDirectories = dl.subDirectories ∧
      r.files.length = dl.files.length ∧
      (f.set_user_metadata user_metadata now).dataMap = f.dataMap ∧
      (f.set_user_metadata user_metadata now).metadata.userMetadata = user_metadata ∧
      (f.set_user_metadata user_metadata now).metadata.modifiedTime = now ∧
      (f.set_user_metadata user_metadata now).metadata.name = f.metadata.name := by
  unfold FileHelper.update_metadata at h
  split at h
  · exact absurd h (by simp)
  next g hg =>
    split at h
    next e hup => exact absurd h (by simp)
    next mutated hup =>
      unfold DirectoryListing.upsert_file at hup
      split at hup
      · exact absurd hup (by simp)
      next hne =>
        split at hup
        next i hidx =>
          injection hup with hup1
          have hshape := update_ok_shape mutated c c' r ?halign2 h
          case halign2 =>
            rw [← hup1]
            exact halign
          refine ⟨i, hidx, ?_, ?_, ?_, ?_, rfl, rfl, rfl, rfl⟩
          · rw [hshape.1, ← hup1]
            rfl
          · rw [hshape.1, ← hup1]
          · rw [hshape.1, ← hup1]
          · rw [hshape.1, ← hup1]
            simp only [setAt_length]
        next hidx =>
          -- the file was found by name but its index was not: impossible
          have hnone := findIndexWith_none_findWith
            (fun g0 => g0.metadata.name ==
              ({ f with metadata := f.metadata.set_user_metadata user_metadata now }).metadata.name)
            dl.files hidx
          simp only [FileMetadata.set_user_metadata] at hnone
          unfold DirectoryListing.find_file at hg
          rw [hnone] at hg
          exact absurd hg (by simp)

/-- Claim C8: `FileHelper::delete` with a present file name removes the
(unique) matching entry and persists the listing; with the name absent it
returns `FileNotFound` leaving the listing and the substrate untouched —
in particular a second delete of the same name returns `FileNotFound`
with everything unchanged. -/
theorem C8_delete_file (file_name : String) (dl : DirectoryListing) (c : Client) (i : Nat)
    (halign : dl.info.key.typeTag = recordTag dl.info.versioned)
    (hi : dl.get_file_index file_name = some i)
    (hu : countWith (fun g => g.metadata.name == file_name) dl.files ≤ 1) :
    (FileHelper.delete file_name dl c).2.1 = { dl with files := removeAt dl.files i } ∧
    (({ dl with files := removeAt dl.files i } : DirectoryListing).find_file file_name
      = none) ∧
    FileHelper.delete file_name ((FileHelper.delete file_name dl c).2.1)
        ((FileHelper.delete file_name dl c).1) =
      ((FileHelper.delete file_name dl c).1, (FileHelper.delete file_name dl c).2.1,
        Except.error NfsError.FileNotFound) ∧
    ((FileHelper.delete file_name dl c).2.2 = Except.ok () →
      DirectoryHelper.get dl.info.key dl.info.versioned dl.info.accessLevel
          (FileHelper.delete file_name dl c).1 =
        ((FileHelper.delete file_name dl c).1,
          Except.ok ({ dl with files := removeAt dl.files i }))) := by
  have hfind : ({ dl with files := removeAt dl.files i } : DirectoryListing).find_file file_name
      = none := by
    unfold DirectoryListing.find_file
    exact findWith_removeAt_none _ _ _ hi hu
  have hidx2 : ({ dl with files := removeAt dl.files i } : DirectoryListing).get_file_index
      file_name = none := by
    unfold DirectoryListing.get_file_index
    unfold DirectoryListing.find_file at hfind
    exact findWith_none_findIndexWith _ _ hfind
  have hdel : ∀ c1 : Client,
      FileHelper.delete file_name ({ dl with files := removeAt dl.files i }) c1 =
        (c1, { dl with files := removeAt dl.files i }, Except.error NfsError.FileNotFound) := by
    intro c1
    unfold FileHelper.delete
    rw [hidx2]
  rcases hup : DirectoryHelper.update ({ dl with files := removeAt dl.files i }) c with ⟨c1, r1⟩
  rcases r1 with e | u
  · have hd1 : FileHelper.delete file_name dl c =
        (c1, { dl with files := removeAt dl.files i }, Except.error e) := by
      unfold FileHelper.delete
      simp only [hi]
      rw [hup]
    rw [hd1]
    refine ⟨rfl, hfind, hdel c1, ?_⟩
    intro hok
    exact absurd hok (by simp)
  · have hd1 : FileHelper.delete file_name dl c =
        (c1, { dl with files := removeAt dl.files i }, Except.ok ()) := by
      unfold FileHelper.delete
      simp only [hi]
      rw [hup]
    rw [hd1]
    have hshape := update_ok_shape ({ dl with files := removeAt dl.files i }) c c1 u halign hup
    refine ⟨rfl, hfind, hdel c1, ?_⟩
    intro _
    exact hshape.2


/-- Claim C9: `FileHelper::read` fails with `FileNotFound` exactly when
the file's name is absent from the listing, and otherwise returns a
Reader bound to the file (hence to its data map).  The embedding is pure:
`Reader::new` makes no substrate call. -/
theorem C9_read_bound_to_file (f : File) (dl : DirectoryListing) :
    (FileHelper.read f dl = Except.error NfsError.FileNotFound ↔
      dl.find_file f.metadata.name = none) ∧
    ((dl.find_file f.metadata.name).isSome = true →
      FileHelper.read f dl = Except.ok { file := f }) ∧
    (∀ rd, FileHelper.read f dl = Except.ok rd → rd.file.dataMap = f.dataMap) := by
  rcases hf : dl.find_file f.metadata.name with _ | g
  · refine ⟨by simp [FileHelper.read, hf], by simp [hf], ?_⟩
    intro rd hrd
    simp [FileHelper.read, hf] at hrd
  · refine ⟨by simp [FileHelper.read, hf], by simp [FileHelper.read, hf], ?_⟩
    intro rd hrd
    simp only [FileHelper.read, hf] at hrd
    injection hrd with h1
    rw [← h1]

/-! ### Witnesses and the C5 counterexample -/

/-- Claim C1 witness: a fresh versioned listing has one version; one
update makes it two. -/
theorem C1_witness :
    (DirectoryHelper.get_versions dlV.info.key clientV).2 = Except.ok [dlV] ∧
    ∃ chain2,
      (DirectoryHelper.get_versions dlV.info.key (DirectoryHelper.update dlV clientV).1).2 =
        Except.ok chain2 ∧
      chain2.length = [dlV].length + 1 :=
  C1_update_appends_one_version dlV clientV
    { version := 0, payload := SDPayload.versioned [dlV] } [dlV] rfl rfl rfl rfl

/-- Claim C2 witness: both parent-phase failure modes at concrete states —
an upsert refusal (`dlP` already holds a `Child` entry) and a parent
persistence failure (`dlA`'s record absent from the empty substrate) —
each surfaced verbatim, with the child's record persisted in both final
states. -/
theorem C2_witness :
    (((DirectoryHelper.create 1 7 "Child" UNVERSIONED_DIRECTORY_LISTING_TAG [] false
        AccessLevel.Private (some dlP) clientA).1).structured
        (recordTag false) 1).isSome = true ∧
    (DirectoryHelper.create 1 7 "Child" UNVERSIONED_DIRECTORY_LISTING_TAG [] false
        AccessLevel.Private (some dlP) clientA).2 = Except.error NfsError.AlreadyExists ∧
    (((DirectoryHelper.create 1 7 "Child" UNVERSIONED_DIRECTORY_LISTING_TAG [] false
        AccessLevel.Private (some dlA) emptyClient).1).structured
        (recordTag false) 1).isSome = true ∧
    (DirectoryHelper.create 1 7 "Child" UNVERSIONED_DIRECTORY_LISTING_TAG [] false
        AccessLevel.Private (some dlA) emptyClient).2 =
      Except.error (NfsError.ClientError ClientError.getFailure) :=
  ⟨(C2_child_persisted_parent_error_surfaced 1 7 "Child" UNVERSIONED_DIRECTORY_LISTING_TAG []
      false AccessLevel.Private dlP clientA).1,
   (C2_child_persisted_parent_error_surfaced 1 7 "Child" UNVERSIONED_DIRECTORY_LISTING_TAG []
      false AccessLevel.Private dlP clientA).2.1 NfsError.AlreadyExists (by rfl),
   (C2_child_persisted_parent_error_surfaced 1 7 "Child" UNVERSIONED_DIRECTORY_LISTING_TAG []
      false AccessLevel.Private dlA emptyClient).1,
   (C2_child_persisted_parent_error_surfaced 1 7 "Child" UNVERSIONED_DIRECTORY_LISTING_TAG []
      false AccessLevel.Private dlA emptyClient).2.2 parentW
     (DirectoryHelper.update_directory_listing_and_parent parentW 7
       ((DirectoryHelper.save_directory_listing childW emptyClient).1.putSD (recordTag false) 1
         (DirectoryHelper.save_directory_listing childW emptyClient).2)).1
     (NfsError.ClientError ClientError.getFailure) (by rfl) (by rfl)⟩

/-- Claim C3 witness: a successful create-with-parent links parent and
child both ways. -/
theorem C3_witness :
    childW.info.parentDirKey = some dlA.info.key ∧
    childW.info.name = "Child" ∧
    ∃ p1, (some parentW : Option DirectoryListing) = some p1 ∧
      (p1.find_sub_directory "Child").isSome = true :=
  C3_parent_linkage 1 7 "Child" UNVERSIONED_DIRECTORY_LISTING_TAG [] false AccessLevel.Private
    dlA clientA
    (DirectoryHelper.create 1 7 "Child" UNVERSIONED_DIRECTORY_LISTING_TAG [] false
      AccessLevel.Private (some dlA) clientA).1
    childW (some parentW) (by rfl)

/-- Claim C4 witness: bootstrap of the user root from the empty session. -/
theorem C4_witness :
    ∃ l1,
      (DirectoryHelper.get_user_root_directory_listing 4 20 emptyClient).2 = Except.ok l1 ∧
      l1.info.name = ROOT_DIRECTORY_NAME ∧
      l1.info.versioned = false ∧
      l1.info.accessLevel = AccessLevel.Private ∧
      l1.info.parentDirKey = none ∧
      ((DirectoryHelper.get_user_root_directory_listing 4 20 emptyClient).1).userRootId =
        some l1.info.key.name ∧
      ∃ l2,
        (DirectoryHelper.get_user_root_directory_listing 5 21
            (DirectoryHelper.get_user_root_directory_listing 4 20 emptyClient).1).2 =
          Except.ok l2 ∧
        l2.info.key = l1.info.key :=
  C4_user_root_bootstrap 4 20 5 21 emptyClient rfl

/-- Claim C5 counterexample: on the key of an unversioned listing created
by this module (record at the unversioned tag only), `get_versions` does
fail — but with the substrate pass-through `ClientError`, not an
`InvalidOperation`-style error; no such variant exists in `NfsError`. -/
theorem C5_counterexample :
    dlA.info.versioned = false ∧
    clientU.structured UNVERSIONED_DIRECTORY_LISTING_TAG dlA.info.key.name ≠ none ∧
    (DirectoryHelper.get_versions dlA.info.key clientU).2 =
      Except.error (NfsError.ClientError ClientError.getFailure) :=
  ⟨rfl, by decide, by rfl⟩

/-- Claim C5 witness: the amended behaviour at concrete states — the full
chain for a versioned record, the pass-through failure for an unversioned
listing's key. -/
theorem C5_witness :
    (DirectoryHelper.get_versions dlV.info.key clientV).2 = Except.ok [dlV] ∧
    (DirectoryHelper.get_versions dlA.info.key clientU).2 =
      Except.error (NfsError.ClientError ClientError.getFailure) :=
  ⟨C5_get_versions_behaviour.1 clientV dlV.info.key
      { version := 0, payload := SDPayload.versioned [dlV] } [dlV] rfl rfl,
   C5_get_versions_behaviour.2 clientU dlA.info.key rfl⟩

/-- Claim C6 witness: duplicate name refused; fresh name gives an
Overwrite-mode Writer over an empty data map. -/
theorem C6_witness :
    (FileHelper.create "A" [] dlA 9 = Except.error NfsError.AlreadyExists ∧
      (dlA.find_file "A").isSome = true) ∧
    (dlA.find_file "B" = none ∧
      FileHelper.create "B" [] dlA 9 =
        Except.ok { mode := Mode.Overwrite, listing := dlA
                  , file := { metadata := FileMetadata.new "B" [] 9
                            , dataMap := DataMap.none } }) :=
  ⟨⟨(C6_file_create_modes "A" [] dlA 9).1.mpr (by decide), by decide⟩,
   ⟨by decide, (C6_file_create_modes "B" [] dlA 9).2 (by decide)⟩⟩

/-- Claim C7 witness: updating `fileA`'s metadata in `dlA` replaces only
its slot. -/
theorem C7_witness :
    ∃ i, findIndexWith (fun g => g.metadata.name == fileA.metadata.name) dlA.files = some i ∧
      rW = { dlA with files := setAt dlA.files i (fileA.set_user_metadata [9] 30) } ∧
      rW.info = dlA.info ∧
      rW.subDirectories = dlA.subDirectories ∧
      rW.files.length = dlA.files.length ∧
      (fileA.set_user_metadata [9] 30).dataMap = fileA.dataMap ∧
      (fileA.set_user_metadata [9] 30).metadata.userMetadata = [9] ∧
      (fileA.set_user_metadata [9] 30).metadata.modifiedTime = 30 ∧
      (fileA.set_user_metadata [9] 30).metadata.name = fileA.metadata.name :=
  C7_update_metadata_isolation fileA [9] dlA 30 clientA
    (FileHelper.update_metadata fileA [9] dlA 30 clientA).1 rW rfl (by rfl)

/-- Claim C8 witness: deleting `A` from `dlA` empties the file list,
persists, and a second delete fails `FileNotFound` unchanged. -/
theorem C8_witness :
    (FileHelper.delete "A" dlA clientA).2.1 = { dlA with files := removeAt dlA.files 0 } ∧
    (({ dlA with files := removeAt dlA.files 0 } : DirectoryListing).find_file "A" = none) ∧
    FileHelper.delete "A" ((FileHelper.delete "A" dlA clientA).2.1)
        ((FileHelper.delete "A" dlA clientA).1) =
      ((FileHelper.delete "A" dlA clientA).1, (FileHelper.delete "A" dlA clientA).2.1,
        Except.error NfsError.FileNotFound) ∧
    ((FileHelper.delete "A" dlA clientA).2.2 = Except.ok () →
      DirectoryHelper.get dlA.info.key dlA.info.versioned dlA.info.accessLevel
          (FileHelper.delete "A" dlA clientA).1 =
        ((FileHelper.delete "A" dlA clientA).1,
          Except.ok ({ dlA with files := removeAt dlA.files 0 }))) :=
  C8_delete_file "A" dlA clientA 0 rfl (by decide) (by decide)

/-- Claim C9 witness: reading a present file yields a Reader over it;
reading an absent one is `FileNotFound`. -/
theorem C9_witness :
    ((dlA.find_file fileA.metadata.name).isSome = true ∧
      FileHelper.read fileA dlA = Except.ok { file := fileA }) ∧
    (FileHelper.read fileB dlA = Except.error NfsError.FileNotFound ↔
      dlA.find_file fileB.metadata.name = none) :=
  ⟨⟨by decide, (C9_read_bound_to_file fileA dlA).2.1 (by decide)⟩,
   (C9_read_bound_to_file fileB dlA).1⟩

/-- Claim C10 witness: at `dlV`'s record the unwrap is safe. -/
theorem C10_witness :
    (DirectoryHelper.get dlV.info.key true AccessLevel.Private clientV).2 ≠
      Except.error NfsError.panicked ∧
    (∀ (freshName now : Nat) (nm : String) (tg : Nat) (meta : List Nat)
        (al2 : AccessLevel) (c2 : Client),
      ((DirectoryHelper.create freshName now nm tg meta true al2 none c2).1).structured
          VERSIONED_DIRECTORY_LISTING_TAG freshName =
        some { version := 0
             , payload := SDPayload.versioned
                 [DirectoryListing.new freshName now nm tg meta true al2 none] }) ∧
    (∀ (key2 : DirectoryKey) (al3 : AccessLevel) (c3 : Client) (sd3 : StructuredData),
      c3.structured key2.typeTag key2.name = some sd3 →
      sd3.payload = SDPayload.versioned [] →
      (DirectoryHelper.get key2 true al3 c3).2 = Except.error NfsError.panicked) :=
  C10_get_latest_unwrap_safe dlV.info.key AccessLevel.Private clientV
    { version := 0, payload := SDPayload.versioned [dlV] } [dlV] rfl rfl (by decide)

end SafeNfs
